import Mathlib

/-!
Shallow embedding of `git-delete-branches` (src/main.rs).

The program reviews local git branches one at a time: it lists them (skipping
`master`, sorted by last-commit time), prompts for a single keystroke per
branch, and executes keep / delete / undo / quit, with a one-slot undo buffer.

Modelling choices:
  * the git backend (`git2::Repository`) is a `Repo`: an association list of
    branch names to commit ids, plus the set of existing commit ids;
  * commit ids are `Nat` (opaque identifiers); timestamps are `Int` seconds;
  * stdin is a `List Char` (one entry per byte read); exhaustion of the list
    models `stdin.next()` returning `None`;
  * every `write!` to stdout is one `OutLine` value carrying its arguments;
    `lineText` gives the literal text written;
  * the mutual recursion of `get_branch_action_from_user` (on `?` or an empty
    read) and of `act_on_branch` (on undo) is made total with a fuel
    parameter: `none` means the fuel ran out, i.e. the source would still be
    recursing;
  * fallible operations return `Except Error`; a Rust panic (reachable via the
    `unwrap` in `get_branches`) is the distinguished result `GbResult.panicked`.
-/

namespace GitDel

/-- Error enum of the program (src/main.rs `enum Error`); crossterm/io errors
are collapsed into one constructor, git2 errors carry a message. -/
inductive Error where
  | crosstermError
  | gitError (msg : String)
  | fromUtf8Error
  | invalidInput (c : Char)
  deriving DecidableEq, Repr

/-- In-memory snapshot of one local branch (src/main.rs `struct Branch`); the
live `git2::Branch` handle is represented by the name kept in the `Repo`. -/
structure Branch where
  time : Int
  id : Nat
  name : String
  is_head : Bool
  deriving DecidableEq, Repr

/-- The git backend: named branches pointing at commit ids, and the commits
that exist in the object store. -/
structure Repo where
  branches : List (String × Nat)
  commits : List Nat
  deriving DecidableEq, Repr

/-- Whether a branch of the given name exists in the backend. -/
def branchExists (bs : List (String × Nat)) (n : String) : Bool :=
  bs.any (fun p => p.1 == n)

/-- Remove the branch of the given name from the backend. -/
def dropBranch (bs : List (String × Nat)) (n : String) : List (String × Nat) :=
  bs.filter (fun p => p.1 != n)

/-- Backend branch deletion (`git2::Branch::delete`): fails when the branch no
longer exists. -/
def deleteBranch (r : Repo) (n : String) : Except Error Repo :=
  if branchExists r.branches n then
    Except.ok { r with branches := dropBranch r.branches n }
  else
    Except.error (Error.gitError "branch not found")

/-- Backend commit lookup (`Repository::find_commit`): succeeds exactly when
the commit id exists, returning the commit (identified by its id). -/
def findCommit (r : Repo) (co : Nat) : Except Error Nat :=
  if co ∈ r.commits then Except.ok co
  else Except.error (Error.gitError "commit not found")

/-- Backend branch creation (`Repository::branch` with a force flag): without
force it fails if a branch of that name already exists. The program always
passes `force = false`. -/
def createBranch (r : Repo) (n : String) (co : Nat) (force : Bool) :
    Except Error Repo :=
  if branchExists r.branches n && !force then
    Except.error (Error.gitError "branch already exists")
  else
    Except.ok { r with branches := (n, co) :: dropBranch r.branches n }

/-- One `write!` to stdout, with its arguments (see `lineText` for the bytes
actually written). `emptyWrite` is the `write!(stdout, "")` of the Keep arm. -/
inductive OutLine where
  | ignoring (name : String)
  | prompt (name : String) (id7 : String) (time : Int)
  | echo (c : Char)
  | helpHeader
  | helpK
  | helpD
  | helpU
  | helpQ
  | helpHelp
  | quitting
  | emptyWrite
  | deleted (name : String)
  | undoing (name : String)
  | nothingToUndo
  | noBranches
  deriving DecidableEq, Repr

/-- The literal text each `write!` sends to stdout. -/
def lineText : OutLine → String
  | OutLine.ignoring n => "Ignoring '" ++ n ++ "' because it is the current branch\r\n"
  | OutLine.prompt n id7 t =>
      "'" ++ n ++ "' (" ++ id7 ++ ") last commit at " ++ toString t ++ " (k/d/q/u/?) > "
  | OutLine.echo c => String.singleton c ++ "\r\n"
  | OutLine.helpHeader => "Here are what the commands mean\r\n"
  | OutLine.helpK => "k - Keep the branch\r\n"
  | OutLine.helpD => "d - Delete the branch\r\n"
  | OutLine.helpU => "u - Undo last deleted branch\r\n"
  | OutLine.helpQ => "q - Quit\r\n"
  | OutLine.helpHelp => "? - Show this help text\r\n"
  | OutLine.quitting => "Quitting...\r\n"
  | OutLine.emptyWrite => ""
  | OutLine.deleted n => "Deleted branch '" ++ n ++ "', to undo select 'u'\r\n"
  | OutLine.undoing n => "Undoing deletion of branch '" ++ n ++ "'\r\n"
  | OutLine.nothingToUndo => "No branch to undo deletion of\r\n"
  | OutLine.noBranches => "No branches found (master ignored).\r\n"

/-- The single line printed to stderr when the program aborts
(`eprintln!("{}", e)`, with thiserror's formatting). -/
def errText : Error → String
  | Error.crosstermError => "terminal error"
  | Error.gitError m => m
  | Error.fromUtf8Error => "invalid utf-8 sequence"
  | Error.invalidInput c =>
      "\n\rInvalid input, Dont know what to do with '" ++ String.singleton c ++ "'"

/-- Branch actions (src/main.rs `enum BranchAction`). -/
inductive BranchAction where
  | quit
  | delete
  | keep
  | undo
  deriving DecidableEq, Repr

/-- Keystroke classification (src/main.rs `impl TryFrom<char> for BranchAction`). -/
def BranchAction.tryFrom (c : Char) : Except Error BranchAction :=
  if c = 'q' then Except.ok BranchAction.quit
  else if c = 'd' then Except.ok BranchAction.delete
  else if c = 'k' then Except.ok BranchAction.keep
  else if c = 'u' then Except.ok BranchAction.undo
  else Except.error (Error.invalidInput c)

/-- The prompt line for one branch: name, 7-character commit id, timestamp. -/
def promptLine (b : Branch) : OutLine :=
  OutLine.prompt b.name ((toString b.id).take 7) b.time

/-- The five-command help legend plus its header line, in source order. -/
def helpLines : List OutLine :=
  [OutLine.helpHeader, OutLine.helpK, OutLine.helpD, OutLine.helpU,
   OutLine.helpQ, OutLine.helpHelp]

/-- Embedding of `get_branch_action_from_user`: prompt, read one byte (an
empty stream re-enters the function), echo it, handle `?` by printing the
legend and re-entering, otherwise classify the key. Returns the classified
action (or the invalid-input error), the remaining input, and the output
produced; `none` means the fuel ran out while the source would still recurse. -/
def get_branch_action_from_user :
    Nat → Branch → List Char →
      Option (Except Error BranchAction × List Char × List OutLine)
  | 0, _, _ => none
  | fuel + 1, b, input =>
    match input with
    | [] =>
      match get_branch_action_from_user fuel b [] with
      | none => none
      | some (r, rest, out) => some (r, rest, promptLine b :: out)
    | c :: rest =>
      if c = '?' then
        match get_branch_action_from_user fuel b rest with
        | none => none
        | some (r, rest2, out) =>
          some (r, rest2, promptLine b :: OutLine.echo c :: (helpLines ++ out))
      else
        some (BranchAction.tryFrom c, rest, [promptLine b, OutLine.echo c])

/-- Review-loop state: the backend plus the one-slot undo buffer
(`deleted_branch` in `main`). -/
structure LoopState where
  repo : Repo
  deleted_branch : Option Branch
  deriving DecidableEq, Repr

/-- Result of processing one branch (or of the whole loop): normal return
with the new state, remaining input and output, or a propagated error with
the backend state at the moment of the error. -/
inductive RunRes where
  | ok (s : LoopState) (input : List Char) (out : List OutLine)
  | err (e : Error) (repo : Repo) (out : List OutLine)
  deriving DecidableEq, Repr

/-- Prepend already-written output to the result of a recursive call. -/
def prependOut (pre : List OutLine) : Option RunRes → Option RunRes
  | none => none
  | some (RunRes.ok s rest out) => some (RunRes.ok s rest (pre ++ out))
  | some (RunRes.err e r out) => some (RunRes.err e r (pre ++ out))

/-- Embedding of `act_on_branch`: skip the current branch, otherwise prompt
and execute the chosen action; Undo clears the buffer and re-enters the same
branch. `none` means the fuel ran out inside the undo (or prompt) recursion. -/
def act_on_branch : Nat → Branch → List Char → LoopState → Option RunRes
  | 0, _, _, _ => none
  | fuel + 1, b, input, s =>
    if b.is_head then
      some (RunRes.ok s input [OutLine.ignoring b.name])
    else
      match get_branch_action_from_user (fuel + 1) b input with
      | none => none
      | some (Except.error e, _, out) => some (RunRes.err e s.repo out)
      | some (Except.ok a, rest, out) =>
        match a with
        | BranchAction.quit =>
          some (RunRes.ok s rest (out ++ [OutLine.quitting]))
        | BranchAction.keep =>
          some (RunRes.ok s rest (out ++ [OutLine.emptyWrite]))
        | BranchAction.delete =>
          match deleteBranch s.repo b.name with
          | Except.error e => some (RunRes.err e s.repo out)
          | Except.ok repo2 =>
            some (RunRes.ok ⟨repo2, some b⟩ rest (out ++ [OutLine.deleted b.name]))
        | BranchAction.undo =>
          match s.deleted_branch with
          | some db =>
            match findCommit s.repo db.id with
            | Except.error e =>
              some (RunRes.err e s.repo (out ++ [OutLine.undoing db.name]))
            | Except.ok co =>
              match createBranch s.repo db.name co false with
              | Except.error e =>
                some (RunRes.err e s.repo (out ++ [OutLine.undoing db.name]))
              | Except.ok repo2 =>
                prependOut (out ++ [OutLine.undoing db.name])
                  (act_on_branch fuel b rest ⟨repo2, none⟩)
          | none =>
            prependOut (out ++ [OutLine.nothingToUndo])
              (act_on_branch fuel b rest ⟨s.repo, none⟩)

/-- The `for branch in branches` loop of `main`: process each queued branch in
order, threading state, input and output; an error aborts the rest of the
loop. Note that a `quit` outcome does NOT stop this loop: `act_on_branch`
merely returns `Ok(())` for it. -/
def runLoop : Nat → List Branch → List Char → LoopState → Option RunRes
  | _, [], input, s => some (RunRes.ok s input [])
  | fuel, b :: bs, input, s =>
    match act_on_branch fuel b input s with
    | none => none
    | some (RunRes.err e r out) => some (RunRes.err e r out)
    | some (RunRes.ok s2 rest out) =>
      match runLoop fuel bs rest s2 with
      | none => none
      | some (RunRes.ok s3 rest2 out2) => some (RunRes.ok s3 rest2 (out ++ out2))
      | some (RunRes.err e r out2) => some (RunRes.err e r (out ++ out2))

/-- Observable outcome of a whole run: exit status, stdout lines, the stderr
line if the program aborted, and the final backend state. -/
structure MainRes where
  exitCode : Nat
  out : List OutLine
  errLine : Option Error
  repo : Repo
  deriving DecidableEq, Repr

/-- Embedding of `main` from the point where the Review Queue is known: an
empty queue prints the no-branches line; otherwise the loop runs with an
empty undo buffer; an error is printed to stderr and the process exits 1,
otherwise it exits 0. -/
def mainRun (fuel : Nat) (branches : List Branch) (repo : Repo)
    (input : List Char) : Option MainRes :=
  if branches.isEmpty then
    some ⟨0, [OutLine.noBranches], none, repo⟩
  else
    match runLoop fuel branches input ⟨repo, none⟩ with
    | none => none
    | some (RunRes.ok s _ out) => some ⟨0, out, none, s.repo⟩
    | some (RunRes.err e r out) => some ⟨1, out, some e, r⟩

/-- Derived timestamp of a commit (src/main.rs lines 137-139): commit UTC
seconds shifted by the commit's own UTC offset in minutes. -/
def branchTime (seconds offsetMinutes : Int) : Int :=
  seconds + 60 * offsetMinutes

/-- The record the enumeration closure builds for one branch that resolved
successfully (src/main.rs lines 141-147). -/
def mkBranchRecord (name : String) (commitId : Nat) (seconds offsetMinutes : Int)
    (is_head : Bool) : Branch :=
  { time := branchTime seconds offsetMinutes, id := commitId, name := name,
    is_head := is_head }

/-- The ordering key of the Review Queue (`sort_unstable_by_key(|b| b.time)`). -/
def byTime (a b : Branch) : Prop :=
  a.time ≤ b.time

instance : DecidableRel byTime :=
  fun a b => inferInstanceAs (Decidable (a.time ≤ b.time))

instance : IsTotal Branch byTime :=
  ⟨fun a b => Int.le_total a.time b.time⟩

instance : IsTrans Branch byTime :=
  ⟨fun _ _ _ h h2 => le_trans h h2⟩

/-- Result of the branch listing: a queue, a propagated error, or a Rust
panic (the `unwrap` inside the filter closure). -/
inductive GbResult where
  | panicked
  | err (e : Error)
  | ok (queue : List Branch)
  deriving DecidableEq, Repr

/-- The `filter` stage of `get_branches`: its closure calls
`branch.as_ref().unwrap()` on each record, so an errored record PANICS
(modelled as `none`); an ok record named `master` is dropped, every other ok
record is kept. -/
def filterRecords : List (Except Error Branch) → Option (List (Except Error Branch))
  | [] => some []
  | Except.error _ :: _ => none
  | Except.ok b :: rs =>
    if b.name = "master" then filterRecords rs
    else (filterRecords rs).map (fun l => Except.ok b :: l)

/-- The `collect::<Result<Vec<_>>>()` stage: first error short-circuits. -/
def collectResults : List (Except Error Branch) → Except Error (List Branch)
  | [] => Except.ok []
  | Except.error e :: _ => Except.error e
  | Except.ok b :: rs => (collectResults rs).map (fun l => b :: l)

/-- Embedding of `get_branches`. Its input is the list of per-record outcomes
of the enumeration closure (each `Except` collapses the fallible steps of
src/main.rs lines 132-144: iterator item, `name_bytes`, `peel_to_commit`,
`String::from_utf8`). Filter (with its panicking unwrap), then collect, then
sort ascending by time. -/
def get_branches (records : List (Except Error Branch)) : GbResult :=
  match filterRecords records with
  | none => GbResult.panicked
  | some kept =>
    match collectResults kept with
    | Except.error e => GbResult.err e
    | Except.ok l => GbResult.ok (List.insertionSort byTime l)

/-- Sample branch `alpha`, commit 100, last commit at time 1, not checked out. -/
def brA : Branch := ⟨1, 100, "alpha", false⟩

/-- Sample branch `beta`, commit 200, last commit at time 2, not checked out. -/
def brB : Branch := ⟨2, 200, "beta", false⟩

/-- Sample branch `gamma`, commit 300, last commit at time 3, not checked out. -/
def brC : Branch := ⟨3, 300, "gamma", false⟩

/-- Sample branch `master`. -/
def brM : Branch := ⟨0, 7, "master", false⟩

/-- A currently checked-out sample branch. -/
def brHead : Branch := ⟨2, 200, "beta", true⟩

/-- Backend holding only `alpha`. -/
def repoA : Repo := ⟨[("alpha", 100)], [100]⟩

/-- Backend holding `alpha` and `beta`. -/
def repoAB : Repo := ⟨[("alpha", 100), ("beta", 200)], [100, 200]⟩

/-- The decision step returns the classified action for a plain command key
(anything except a question mark) after a prompt and an echo. -/
theorem gbafu_cons (f : Nat) (b : Branch) (c : Char) (rest : List Char) (h : c ≠ '?') :
    get_branch_action_from_user (f + 1) b (c :: rest) =
      some (BranchAction.tryFrom c, rest, [promptLine b, OutLine.echo c]) := by
  simp [get_branch_action_from_user, h]

/-- Keep: no mutation, an empty write, advance. -/
theorem act_keep (f : Nat) (b : Branch) (rest : List Char) (s : LoopState)
    (hb : b.is_head = false) :
    act_on_branch (f + 1) b ('k' :: rest) s =
      some (RunRes.ok s rest [promptLine b, OutLine.echo 'k', OutLine.emptyWrite]) := by
  simp [act_on_branch, hb, gbafu_cons, BranchAction.tryFrom]

/-- Quit: announce and return from this branch's step (state unchanged). -/
theorem act_quit (f : Nat) (b : Branch) (rest : List Char) (s : LoopState)
    (hb : b.is_head = false) :
    act_on_branch (f + 1) b ('q' :: rest) s =
      some (RunRes.ok s rest [promptLine b, OutLine.echo 'q', OutLine.quitting]) := by
  simp [act_on_branch, hb, gbafu_cons, BranchAction.tryFrom]

/-- Delete: remove the branch from the backend, announce with the undo hint,
move the record into the undo buffer. -/
theorem act_delete (f : Nat) (b : Branch) (rest : List Char) (s : LoopState)
    (hb : b.is_head = false) (hex : branchExists s.repo.branches b.name = true) :
    act_on_branch (f + 1) b ('d' :: rest) s =
      some (RunRes.ok ⟨{ s.repo with branches := dropBranch s.repo.branches b.name }, some b⟩
        rest [promptLine b, OutLine.echo 'd', OutLine.deleted b.name]) := by
  simp [act_on_branch, hb, gbafu_cons, BranchAction.tryFrom, deleteBranch, hex]

/-- Undo with an empty buffer: report, keep the backend as it is, and re-run
the decision step for the same branch. -/
theorem act_undo_empty (f : Nat) (b : Branch) (rest : List Char) (s : LoopState)
    (hb : b.is_head = false) (hbuf : s.deleted_branch = none) :
    act_on_branch (f + 1) b ('u' :: rest) s =
      prependOut [promptLine b, OutLine.echo 'u', OutLine.nothingToUndo]
        (act_on_branch f b rest ⟨s.repo, none⟩) := by
  simp [act_on_branch, hb, gbafu_cons, BranchAction.tryFrom, hbuf]

/-- Undo with an occupied buffer: recreate the buffered branch at its commit,
clear the buffer, and re-run the decision step for the same branch. -/
theorem act_undo_some (f : Nat) (b : Branch) (rest : List Char) (s : LoopState) (db : Branch)
    (hb : b.is_head = false) (hbuf : s.deleted_branch = some db)
    (hc : db.id ∈ s.repo.commits)
    (hex : branchExists s.repo.branches db.name = false) :
    act_on_branch (f + 1) b ('u' :: rest) s =
      prependOut [promptLine b, OutLine.echo 'u', OutLine.undoing db.name]
        (act_on_branch f b rest
          ⟨{ s.repo with
              branches := (db.name, db.id) :: dropBranch s.repo.branches db.name }, none⟩) := by
  simp [act_on_branch, hb, gbafu_cons, BranchAction.tryFrom, hbuf, findCommit, hc,
        createBranch, hex]

/-- The currently checked-out branch is skipped with the ignored line. -/
theorem act_head (f : Nat) (b : Branch) (input : List Char) (s : LoopState)
    (hb : b.is_head = true) :
    act_on_branch (f + 1) b input s =
      some (RunRes.ok s input [OutLine.ignoring b.name]) := by
  simp [act_on_branch, hb]

/-- A keystroke outside the command vocabulary yields the invalid-input error
with no backend mutation. -/
theorem act_invalid (f : Nat) (b : Branch) (c : Char) (rest : List Char) (s : LoopState)
    (hb : b.is_head = false)
    (hq : c ≠ 'q') (hd : c ≠ 'd') (hk : c ≠ 'k') (hu : c ≠ 'u') (hh : c ≠ '?') :
    act_on_branch (f + 1) b (c :: rest) s =
      some (RunRes.err (Error.invalidInput c) s.repo [promptLine b, OutLine.echo c]) := by
  simp [act_on_branch, hb, gbafu_cons, BranchAction.tryFrom, hq, hd, hk, hu, hh]

/-- Deleting a branch really removes it: it no longer exists afterwards. -/
theorem branchExists_dropBranch (bs : List (String × Nat)) (n : String) :
    branchExists (dropBranch bs n) n = false := by
  simp [dropBranch, branchExists]

/-- Dropping the same name twice is the same as dropping it once. -/
theorem dropBranch_dropBranch (bs : List (String × Nat)) (n : String) :
    dropBranch (dropBranch bs n) n = dropBranch bs n := by
  simp [dropBranch, List.filter_filter]

/-- No record that survives the filter stage is named `master`. -/
theorem filterRecords_no_master (records kept : List (Except Error Branch))
    (h : filterRecords records = some kept) :
    ∀ b : Branch, Except.ok b ∈ kept → b.name ≠ "master" := by
  induction records generalizing kept with
  | nil =>
    simp [filterRecords] at h
    subst h
    simp
  | cons r rest ih =>
    match r with
    | Except.error e => simp [filterRecords] at h
    | Except.ok b =>
      by_cases hm : b.name = "master"
      · rw [filterRecords, if_pos hm] at h
        exact ih kept h
      · rw [filterRecords, if_neg hm] at h
        match hk : filterRecords rest with
        | none => rw [hk] at h; simp at h
        | some kept2 =>
          rw [hk] at h
          simp at h
          subst h
          intro b2 hmem
          simp at hmem
          rcases hmem with hmem | hmem
          · subst hmem; exact hm
          · exact ih kept2 hk b2 hmem

/-- Every branch collected into the queue came from a kept ok record. -/
theorem collectResults_mem (kept : List (Except Error Branch)) (l : List Branch)
    (h : collectResults kept = Except.ok l) :
    ∀ b ∈ l, Except.ok b ∈ kept := by
  induction kept generalizing l with
  | nil =>
    simp [collectResults] at h
    subst h
    simp
  | cons r rest ih =>
    match r with
    | Except.error e => simp [collectResults] at h
    | Except.ok b =>
      rw [collectResults] at h
      match hk : collectResults rest with
      | Except.error e => rw [hk] at h; simp [Except.map] at h
      | Except.ok l2 =>
        rw [hk] at h
        simp [Except.map] at h
        subst h
        intro b2 hmem
        simp at hmem
        rcases hmem with hmem | hmem
        · subst hmem; simp
        · exact List.mem_cons_of_mem _ (ih l2 hk b2 hmem)

/-- C1: evidence against the claim that Quit terminates the Review Loop.
`return Ok(())` in `act_on_branch` only returns from that function, and the
`for` loop in `main` goes on: with queue `[alpha, beta]` and input `q d`, the
program announces quitting at `alpha`, then nevertheless prompts `beta` and
deletes it, and exits with status 0. -/
theorem quit_continues_with_next_branch :
    mainRun 9 [brA, brB] repoAB ['q', 'd'] =
      some ⟨0, [promptLine brA, OutLine.echo 'q', OutLine.quitting,
                promptLine brB, OutLine.echo 'd', OutLine.deleted "beta"],
            none, ⟨[("alpha", 100)], [100, 200]⟩⟩ := by decide

/-- C2: the claimed scenario is false on the code. For queue
`[alpha(t=1), beta(t=2)]` and input `d u d q`, the run exits 0, but `alpha`
is PRESENT in the final backend (the claim says A ends deleted) and `beta`
IS prompted (the claim says B is never prompted). -/
theorem dudq_scenario_counterexample :
    (mainRun 9 [brA, brB] repoAB ['d', 'u', 'd', 'q']).map
        (fun r => (r.exitCode, r.repo.branches.contains ("alpha", 100),
                   r.out.contains (promptLine brB))) =
      some (0, true, true) := by decide

/-- C2 (amended): with queue `[alpha(t=1), beta(t=2)]` and input `d u d q`,
`alpha` is deleted at its own prompt; the `u` is consumed at `beta`'s prompt
and restores `alpha`; `beta` is re-prompted and the second `d` deletes
`beta`; the `q` is never read; the final backend holds exactly `alpha`, and
the process exits with status 0. -/
theorem dudq_scenario_actual_trace :
    mainRun 9 [brA, brB] repoAB ['d', 'u', 'd', 'q'] =
      some ⟨0, [promptLine brA, OutLine.echo 'd', OutLine.deleted "alpha",
                promptLine brB, OutLine.echo 'u', OutLine.undoing "alpha",
                promptLine brB, OutLine.echo 'd', OutLine.deleted "beta"],
            none, ⟨[("alpha", 100)], [100, 200]⟩⟩ := by decide

/-- C3: evidence against the claim that a failing record makes the listing
return a descriptive error without panicking. The filter closure in
`get_branches` calls `branch.as_ref().unwrap()` on every record, so an
enumeration containing one failing record (here: a name that is not valid
UTF-8) PANICS instead of returning the error. -/
theorem get_branches_failing_record_panics :
    get_branches [Except.ok brA, Except.error Error.fromUtf8Error, Except.ok brB] =
      GbResult.panicked := by decide

/-- C4: evidence against the claim that Keep produces a `kept` status line.
Reviewing `alpha` with input `k` writes the prompt, the echoed keypress, and
then the empty string — zero bytes, no status line of any kind. -/
theorem keep_produces_no_status_line :
    (mainRun 9 [brA] repoA ['k']).map (fun r => (r.exitCode, r.out.map lineText)) =
      some (0, ["'alpha' (100) last commit at 1 (k/d/q/u/?) > ", "k\r\n", ""]) := by decide

/-- C4 (amended): each terminal per-branch outcome writes exactly one status
line — Ignore the ignored line, Delete the deleted-plus-undo-hint line, Quit
the quitting line — EXCEPT Keep, whose only write after the echo is the empty
string (zero bytes, no status line). -/
theorem per_outcome_status_lines (f : Nat) (b bh : Branch) (input rest : List Char)
    (s : LoopState) (hb : b.is_head = false) (hh : bh.is_head = true)
    (hex : branchExists s.repo.branches b.name = true) :
    act_on_branch (f + 1) bh input s =
      some (RunRes.ok s input [OutLine.ignoring bh.name]) ∧
    act_on_branch (f + 1) b ('k' :: rest) s =
      some (RunRes.ok s rest [promptLine b, OutLine.echo 'k', OutLine.emptyWrite]) ∧
    act_on_branch (f + 1) b ('d' :: rest) s =
      some (RunRes.ok ⟨{ s.repo with branches := dropBranch s.repo.branches b.name }, some b⟩
        rest [promptLine b, OutLine.echo 'd', OutLine.deleted b.name]) ∧
    act_on_branch (f + 1) b ('q' :: rest) s =
      some (RunRes.ok s rest [promptLine b, OutLine.echo 'q', OutLine.quitting]) ∧
    lineText OutLine.emptyWrite = "" :=
  ⟨act_head f bh input s hh, act_keep f b rest s hb, act_delete f b rest s hb hex,
   act_quit f b rest s hb, rfl⟩

/-- C4 witness: the per-outcome output shapes at concrete inputs (branch
`alpha` in a backend holding only `alpha`; `beta` checked out). -/
theorem per_outcome_status_lines_witness :
    act_on_branch 1 brHead ['k'] ⟨repoA, none⟩ =
      some (RunRes.ok ⟨repoA, none⟩ ['k'] [OutLine.ignoring "beta"]) ∧
    act_on_branch 1 brA ['k'] ⟨repoA, none⟩ =
      some (RunRes.ok ⟨repoA, none⟩ [] [promptLine brA, OutLine.echo 'k', OutLine.emptyWrite]) ∧
    act_on_branch 1 brA ['d'] ⟨repoA, none⟩ =
      some (RunRes.ok ⟨⟨[], [100]⟩, some brA⟩ []
        [promptLine brA, OutLine.echo 'd', OutLine.deleted "alpha"]) ∧
    act_on_branch 1 brA ['q'] ⟨repoA, none⟩ =
      some (RunRes.ok ⟨repoA, none⟩ [] [promptLine brA, OutLine.echo 'q', OutLine.quitting]) ∧
    lineText OutLine.emptyWrite = "" :=
  per_outcome_status_lines 0 brA brHead ['k'] [] ⟨repoA, none⟩ rfl rfl (by decide)

/-- C5: the undo buffer has depth exactly one. Deleting `b1` and then `b2`
(no undo in between) and then undoing at the next prompt restores only `b2`
at its commit; `b1` stays deleted: the final backend holds `b2` and `b3` but
not `b1`. -/
theorem undo_buffer_depth_one (f : Nat) (b1 b2 b3 : Branch) (cs : List Nat)
    (h1 : b1.is_head = false) (h2 : b2.is_head = false) (h3 : b3.is_head = false)
    (h12 : b1.name ≠ b2.name) (h13 : b1.name ≠ b3.name) (h23 : b2.name ≠ b3.name)
    (hc : b2.id ∈ cs) :
    runLoop (f + 1 + 1) [b1, b2, b3] ['d', 'd', 'u', 'k']
        ⟨⟨[(b1.name, b1.id), (b2.name, b2.id), (b3.name, b3.id)], cs⟩, none⟩ =
      some (RunRes.ok ⟨⟨[(b2.name, b2.id), (b3.name, b3.id)], cs⟩, none⟩ []
        [promptLine b1, OutLine.echo 'd', OutLine.deleted b1.name,
         promptLine b2, OutLine.echo 'd', OutLine.deleted b2.name,
         promptLine b3, OutLine.echo 'u', OutLine.undoing b2.name,
         promptLine b3, OutLine.echo 'k', OutLine.emptyWrite]) := by
  simp [runLoop, act_delete, act_undo_some, act_keep, prependOut,
        branchExists, dropBranch, h1, h2, h3, h12, h13, h23,
        h12.symm, h13.symm, h23.symm, hc]

/-- C5 witness: deleting `alpha` then `beta` and undoing restores only
`beta`; `alpha` is gone from the final backend. -/
theorem undo_buffer_depth_one_witness :
    runLoop 2 [brA, brB, brC] ['d', 'd', 'u', 'k']
        ⟨⟨[("alpha", 100), ("beta", 200), ("gamma", 300)], [100, 200, 300]⟩, none⟩ =
      some (RunRes.ok ⟨⟨[("beta", 200), ("gamma", 300)], [100, 200, 300]⟩, none⟩ []
        [promptLine brA, OutLine.echo 'd', OutLine.deleted "alpha",
         promptLine brB, OutLine.echo 'd', OutLine.deleted "beta",
         promptLine brC, OutLine.echo 'u', OutLine.undoing "beta",
         promptLine brC, OutLine.echo 'k', OutLine.emptyWrite]) :=
  undo_buffer_depth_one 0 brA brB brC [100, 200, 300] rfl rfl rfl
    (by decide) (by decide) (by decide) (by decide)

/-- C6: delete-then-undo is a round trip. Deleting branch `b` (commit
`b.id`) and then undoing recreates a branch named `b.name` pointing at
`b.id` (via the non-forcing create, which succeeded because the branch was
gone), and the undo buffer is empty afterwards. -/
theorem delete_then_undo_round_trip (f : Nat) (b b2 : Branch)
    (L : List (String × Nat)) (cs : List Nat)
    (hb : b.is_head = false) (hb2 : b2.is_head = false)
    (hex : branchExists L b.name = true) (hc : b.id ∈ cs) :
    runLoop (f + 1 + 1) [b, b2] ['d', 'u', 'k'] ⟨⟨L, cs⟩, none⟩ =
      some (RunRes.ok ⟨⟨(b.name, b.id) :: dropBranch L b.name, cs⟩, none⟩ []
        [promptLine b, OutLine.echo 'd', OutLine.deleted b.name,
         promptLine b2, OutLine.echo 'u', OutLine.undoing b.name,
         promptLine b2, OutLine.echo 'k', OutLine.emptyWrite]) := by
  simp [runLoop, act_delete, act_undo_some, act_keep, prependOut,
        hb, hb2, hex, hc, branchExists_dropBranch, dropBranch_dropBranch]

/-- C6 witness: deleting `alpha` (commit 100) and undoing restores
`("alpha", 100)` with the buffer empty. -/
theorem delete_then_undo_round_trip_witness :
    runLoop 2 [brA, brB] ['d', 'u', 'k'] ⟨repoAB, none⟩ =
      some (RunRes.ok ⟨⟨[("alpha", 100), ("beta", 200)], [100, 200]⟩, none⟩ []
        [promptLine brA, OutLine.echo 'd', OutLine.deleted "alpha",
         promptLine brB, OutLine.echo 'u', OutLine.undoing "alpha",
         promptLine brB, OutLine.echo 'k', OutLine.emptyWrite]) :=
  delete_then_undo_round_trip 0 brA brB [("alpha", 100), ("beta", 200)] [100, 200]
    rfl rfl (by decide) (by decide)

/-- C7: undo with an empty buffer mutates nothing, writes the
nothing-to-undo line, and re-runs the full decision step for the SAME
branch with the backend unchanged. -/
theorem undo_empty_buffer_safe (f : Nat) (b : Branch) (rest : List Char) (s : LoopState)
    (hb : b.is_head = false) (hbuf : s.deleted_branch = none) :
    act_on_branch (f + 1) b ('u' :: rest) s =
      prependOut [promptLine b, OutLine.echo 'u', OutLine.nothingToUndo]
        (act_on_branch f b rest ⟨s.repo, none⟩) :=
  act_undo_empty f b rest s hb hbuf

/-- C7 witness: an undo at `alpha`'s prompt with nothing deleted yet reports
and re-prompts `alpha` over the unchanged backend. -/
theorem undo_empty_buffer_safe_witness :
    act_on_branch 2 brA ['u', 'k'] ⟨repoA, none⟩ =
      prependOut [promptLine brA, OutLine.echo 'u', OutLine.nothingToUndo]
        (act_on_branch 1 brA ['k'] ⟨repoA, none⟩) :=
  undo_empty_buffer_safe 1 brA ['k'] ⟨repoA, none⟩ rfl rfl

/-- C8: whenever the listing succeeds, no branch in the Review Queue is
named `master`, and the queue is sorted non-decreasing by the derived
last-commit timestamp. -/
theorem queue_no_master_and_sorted (records : List (Except Error Branch))
    (q : List Branch) (h : get_branches records = GbResult.ok q) :
    (∀ b ∈ q, b.name ≠ "master") ∧ List.Sorted byTime q := by
  unfold get_branches at h
  match hf : filterRecords records with
  | none => rw [hf] at h; simp at h
  | some kept =>
    rw [hf] at h
    dsimp only at h
    match hk : collectResults kept with
    | Except.error e => rw [hk] at h; simp at h
    | Except.ok l =>
      rw [hk] at h
      simp at h
      subst h
      constructor
      · intro b hmem
        have hmem2 : b ∈ l := (List.perm_insertionSort byTime l).mem_iff.mp hmem
        exact filterRecords_no_master records kept hf b (collectResults_mem kept l hk b hmem2)
      · exact List.sorted_insertionSort byTime l

/-- C8 witness: an enumeration delivering `beta`, `master`, `alpha` yields
the queue `[alpha, beta]`, which is master-free and sorted by time. -/
theorem queue_no_master_and_sorted_witness :
    (∀ b ∈ [brA, brB], b.name ≠ "master") ∧ List.Sorted byTime [brA, brB] :=
  queue_no_master_and_sorted [Except.ok brB, Except.ok brM, Except.ok brA] [brA, brB]
    (by decide)

/-- C9: a keystroke outside `k`, `d`, `u`, `q`, `?` is fatal: the run stops
with the invalid-input error carrying the offending character, the second
queued branch is never prompted, the backend is untouched, the process exits
1, and the stderr line names the character. -/
theorem invalid_input_fatal (f : Nat) (c : Char) (b1 b2 : Branch) (repo : Repo)
    (hb1 : b1.is_head = false)
    (hq : c ≠ 'q') (hd : c ≠ 'd') (hk : c ≠ 'k') (hu : c ≠ 'u') (hh : c ≠ '?') :
    mainRun (f + 1) [b1, b2] repo [c] =
      some ⟨1, [promptLine b1, OutLine.echo c], some (Error.invalidInput c), repo⟩ ∧
    errText (Error.invalidInput c) =
      "\n\rInvalid input, Dont know what to do with '" ++ String.singleton c ++ "'" := by
  constructor
  · simp [mainRun, runLoop, act_invalid, hb1, hq, hd, hk, hu, hh]
  · rfl

/-- C9 witness: input `x` on the first prompt aborts with the invalid-input
error naming `x` and exit status 1; `beta` is never prompted. -/
theorem invalid_input_fatal_witness :
    mainRun 1 [brA, brB] repoAB ['x'] =
      some ⟨1, [promptLine brA, OutLine.echo 'x'], some (Error.invalidInput 'x'), repoAB⟩ ∧
    errText (Error.invalidInput 'x') =
      "\n\rInvalid input, Dont know what to do with '" ++ String.singleton 'x' ++ "'" :=
  invalid_input_fatal 0 'x' brA brB repoAB rfl (by decide) (by decide) (by decide)
    (by decide) (by decide)

/-- C10: with standard input exhausted (every read yields no byte), the
prompt operation re-enters itself forever: for every amount of fuel it
produces no result at all — no error, no EOF outcome, nothing is ever
surfaced to the Review Loop. -/
theorem empty_input_never_returns (fuel : Nat) (b : Branch) :
    get_branch_action_from_user fuel b [] = none := by
  induction fuel with
  | zero => rfl
  | succ f ih => simp [get_branch_action_from_user, ih]

end GitDel
